import Mathlib

/-!
Verification development for the RedFlagProfits repository: a shallow
embedding of the wealth-dashboard chart layer (wealth-timeline-chart.js,
the data payload embedded in docs/index.html) together with models of the
analytics core (categorical dictionary encoder, columnar snapshot store,
series merger, growth-model fitter, inflation adjuster, summary projector)
described by the specification, and theorems settling the spec claims.
-/

namespace RedFlagProfits

/-! ## Chart layer data model (from wealth-timeline-chart.js) -/

/-- A chart point as it appears in the JSON payload: an ISO date string and
a numeric value (trillions of dollars). -/
structure ChartPoint where
  x : String
  y : ℚ
deriving DecidableEq

/-- The inflation payload attached to the chart data
(fields read by wealth-timeline-chart.js). -/
structure InflationData where
  data : List ChartPoint
  inflationType : String
  baseDate : Option String
deriving DecidableEq

/-- Fit parameters as carried in the payload (fitParams object of
docs/index.html); annualGrowthRate and r_squared may be absent in a
malformed payload, hence Option. -/
structure FitParams where
  a : ℚ
  b : ℚ
  annualGrowthRate : Option ℚ
  r_squared : Option ℚ
deriving DecidableEq

/-- Summary block of the payload; every field may be absent, mirroring the
defensive reads in updateInfo. -/
structure Summary where
  dataPoints : Option ℕ
  timespan : Option String
  startValue : Option ℚ
  endValue : Option ℚ
  totalIncrease : Option ℚ
deriving DecidableEq

/-- The chart data payload consumed by WealthTimelineChart. -/
structure ChartData where
  data : List ChartPoint
  trendLine : Option (List ChartPoint)
  inflationData : Option InflationData
  inflationTrendLine : Option (List ChartPoint)
  fitParams : Option FitParams
  summary : Option Summary
  inflationSummary : Option Summary
  inflationFitParams : Option FitParams
deriving DecidableEq

/-- Embeds WealthTimelineChart.updateChartData
(docs/js/wealth-timeline-chart.js lines 299-334, identical logic in
src/static/js lines 377-434): dataToUse starts as chartData.data and
trendToUse as chartData.trendLine; when the inflation view is on and
inflationData is present, dataToUse becomes inflationData.data and, only
when inflationTrendLine is present, trendToUse becomes it; otherwise the
nominal trend line is kept. Returns (dataToUse, trendToUse). -/
def updateChartData (cd : ChartData) (showInflation : Bool) :
    List ChartPoint × Option (List ChartPoint) :=
  match showInflation, cd.inflationData with
  | true, some infl =>
    match cd.inflationTrendLine with
    | some t => (infl.data, some t)
    | none => (infl.data, cd.trendLine)
  | _, _ => (cd.data, cd.trendLine)

/-- Embeds the disabled attribute put on the Inflation Adjusted button by
setupControls (docs/js lines 261-280): the button is rendered disabled
exactly when chartData.inflationData is absent. -/
def inflationButtonDisabled (cd : ChartData) : Bool :=
  cd.inflationData.isNone

/-- Embeds handleControlClick (docs/js lines 282-297) acting on the
showInflation state: a click with an empty view attribute or on a disabled
button returns early; otherwise the new state is (view equals inflation).
Only the inflation button can be disabled, per setupControls. -/
def handleControlClick (cd : ChartData) (showInflation : Bool)
    (view : String) : Bool :=
  if view = "" then showInflation
  else if view = "inflation" ∧ inflationButtonDisabled cd then showInflation
  else view = "inflation"

/-- What updateInfo renders, with option fields standing for the N/A
substitutions: none means the literal string N/A was displayed. Numeric
fields hold the exact value handed to toFixed, so two equal RenderedInfo
values produce identical markup. -/
structure RenderedInfo where
  dataPoints : Option ℕ
  timespan : Option String
  startValue : Option ℚ
  endValue : Option ℚ
  totalIncrease : Option ℚ
  growthRate : Option ℚ
  rSquared : Option ℚ
deriving DecidableEq

/-- JavaScript truthiness of a count in a template slot: 0 is falsy, so
a zero dataPoints renders as N/A via the or-default. -/
def jsCountDisplay (x : Option ℕ) : Option ℕ :=
  match x with
  | some 0 => none
  | some n => some n
  | none => none

/-- JavaScript truthiness of a string in a template slot: the empty string
is falsy and renders as N/A. -/
def jsStrDisplay (x : Option String) : Option String :=
  match x with
  | some "" => none
  | some s => some s
  | none => none

/-- Renders one summary together with the growth-rate and r-squared values
into the info area, mirroring the template literal of updateInfo: missing
numeric fields pass undefined to the optional-chain toFixed and fall back
to N/A, while a present number (zero included, since toFixed of 0 is the
truthy string 0.0) is displayed. -/
def renderInfo (s : Summary) (gr rs : Option ℚ) : RenderedInfo :=
  { dataPoints := jsCountDisplay s.dataPoints
    timespan := jsStrDisplay s.timespan
    startValue := s.startValue
    endValue := s.endValue
    totalIncrease := s.totalIncrease
    growthRate := gr
    rSquared := rs }

/-- Embeds updateInfo (docs/js lines 336-364): returns none when the early
return fires (no summary), otherwise the rendered info. growthRate and
rSquared default to 0 through the or-zero defaults; in the inflation
branch they are replaced by the inflation fit fields when an
inflationFitParams object exists (those reads have no default, so a
missing field there renders as N/A). -/
def updateInfo (cd : ChartData) (showInflation : Bool) :
    Option RenderedInfo :=
  match cd.summary with
  | none => none
  | some s0 =>
    let gr0 : Option ℚ := some ((cd.fitParams.bind FitParams.annualGrowthRate).getD 0)
    let rs0 : Option ℚ := some ((cd.fitParams.bind FitParams.r_squared).getD 0)
    match showInflation, cd.inflationData, cd.inflationSummary with
    | true, some _, some si =>
      match cd.inflationFitParams with
      | some fp => some (renderInfo si fp.annualGrowthRate fp.r_squared)
      | none => some (renderInfo si gr0 rs0)
    | _, _, _ => some (renderInfo s0 gr0 rs0)

/-! ## The payload embedded in docs/index.html (line 129) -/

/-- The fitParams object of window.wealthTimelineData in docs/index.html. -/
def wealthFitParams : FitParams :=
  { a := 12.353175509465203
    b := 0.0003235203912776391
    annualGrowthRate := some 12.543071809643624
    r_squared := some 0.9634206022190024 }

/-- The summary object of window.wealthTimelineData in docs/index.html. -/
def wealthSummary : Summary :=
  { dataPoints := some 141
    timespan := some "2023-04-15 to 2025-06-01"
    startValue := some 12.640847367000001
    endValue := some 16.529622766
    totalIncrease := some 30.763565812462655 }

/-- First entry of the trendLine array of window.wealthTimelineData. -/
def trendLineFirst : ChartPoint := { x := "2023-04-15", y := 12.353175509465203 }

/-- Final entry of the trendLine array of window.wealthTimelineData. -/
def trendLineLast : ChartPoint := { x := "2025-06-01", y := 15.888761266437603 }

/-- timeRange.totalDays of the payload: the day count from the first data
point (2023-04-15) to the last (2025-06-01). -/
def timeRange_totalDays : ℕ := 778

/-! ## Error taxonomy (spec section 7) -/

/-- Error taxonomy of the core, from spec section 7. -/
inductive StoreError where
  | validationError
  | unknownCodeError
  | insufficientDataError
  | indexCoverageError
deriving DecidableEq

/-! ## Categorical dictionary encoder (spec section 4.1) -/

/-- Modelled from the spec (section 4.1, the encoder source is not under
src): a per-field categorical dictionary is the list of its values in
allocation order, the code of a value being its position. encode returns
the existing code when the value was seen before for the field, else
allocates the next unused integer (the current dictionary size, appending
the value), so codes grow monotonically from 0 and are never reassigned. -/
def encode : List String → String → List String × ℕ
  | [], v => ([v], 0)
  | w :: ws, v =>
    if w = v then (w :: ws, 0)
    else
      let r := encode ws v
      (w :: r.1, r.2 + 1)

/-- Modelled from the spec (section 4.1): decode is positional lookup in
the dictionary; none stands for UnknownCodeError when the code was never
allocated. -/
def decode (d : List String) (c : ℕ) : Option String := d[c]?

/-- Folds encode over a batch of values, returning the grown dictionary
and the codes in encounter order. -/
def encodeAll (d : List String) : List String → List String × List ℕ
  | [] => (d, [])
  | v :: vs =>
    let r := encode d v
    let rest := encodeAll r.1 vs
    (rest.1, r.2 :: rest.2)

/-! ## Wealth records (spec section 3) -/

/-- One financial-asset holding of a record (spec section 3). -/
structure Holding where
  company : String
  shares : ℚ
  price : ℚ
deriving DecidableEq

/-- One entity valuation on one date (spec section 3 WealthRecord). -/
structure WealthRecord where
  entityId : String
  name : String
  netWorth : ℚ
  currency : String
  industry : String
  exchange : String
  date : ℤ
  holdings : List Holding
deriving DecidableEq

/-! ## Series merger (spec section 4.3) -/

/-- Modelled from the spec (section 4.3, the merger source is not under
src): the store is abstracted as its chronological list of (date, records
for that date) groups. If the batch date already has records they are
superseded (new rows take precedence, old rows for that date are excluded
from subsequent aggregation); otherwise the batch is a pure append. -/
def merge (store : List (ℤ × List WealthRecord))
    (newBatch : List WealthRecord) (batchDate : ℤ) :
    List (ℤ × List WealthRecord) :=
  if store.any (fun e => e.1 = batchDate) then
    store.map (fun e => if e.1 = batchDate then (batchDate, newBatch) else e)
  else store ++ [(batchDate, newBatch)]

/-- The aggregate point for one date (spec section 4.3): date, sum of net
worth over the active records of that date, count of active records. -/
def aggregatePoint (d : ℤ) (rs : List WealthRecord) : ℤ × ℚ × ℕ :=
  (d, (rs.map WealthRecord.netWorth).sum, rs.length)

/-- The aggregate series derived from the store (spec section 3
HistoricalSeries): one aggregate point per stored date. -/
def aggregateSeries (store : List (ℤ × List WealthRecord)) :
    List (ℤ × ℚ × ℕ) :=
  store.map (fun e => aggregatePoint e.1 e.2)

/-! ## Columnar snapshot store (spec section 4.2) -/

/-- Modelled from the spec (sections 3, 4.2, the store source is not under
src): column-oriented backing arrays, one entry per record row, with the
nested holdings decomposed into parallel arrays keyed by per-record offset
and count, and one dictionary per categorical field. -/
structure ColumnStore where
  entityIds : List String
  names : List String
  netWorths : List ℚ
  dates : List ℤ
  industryCodes : List ℕ
  exchangeCodes : List ℕ
  holdingStarts : List ℕ
  holdingCounts : List ℕ
  holdingCompanyCodes : List ℕ
  holdingShares : List ℚ
  holdingPrices : List ℚ
  industryDict : List String
  exchangeDict : List String
  companyDict : List String
deriving DecidableEq

/-- Modelled from the spec (section 4.2, the append source is not under
src): append one record. A malformed record (empty entity identifier) is
rejected with ValidationError before any column is touched; otherwise the
categorical fields go through the encoder, the holdings are decomposed
into the parallel arrays, and every column receives its entry. -/
def appendRecord (s : ColumnStore) (r : WealthRecord) :
    Except StoreError ColumnStore :=
  if r.entityId = "" then .error .validationError
  else
    let ind := encode s.industryDict r.industry
    let exch := encode s.exchangeDict r.exchange
    let comp := encodeAll s.companyDict (r.holdings.map Holding.company)
    .ok
      { entityIds := s.entityIds ++ [r.entityId]
        names := s.names ++ [r.name]
        netWorths := s.netWorths ++ [r.netWorth]
        dates := s.dates ++ [r.date]
        industryCodes := s.industryCodes ++ [ind.2]
        exchangeCodes := s.exchangeCodes ++ [exch.2]
        holdingStarts := s.holdingStarts ++ [s.holdingCompanyCodes.length]
        holdingCounts := s.holdingCounts ++ [r.holdings.length]
        holdingCompanyCodes := s.holdingCompanyCodes ++ comp.2
        holdingShares := s.holdingShares ++ r.holdings.map Holding.shares
        holdingPrices := s.holdingPrices ++ r.holdings.map Holding.price
        industryDict := ind.1
        exchangeDict := exch.1
        companyDict := comp.1 }

/-- The caller-facing append: on an error the caller keeps the store it
had, so a rejected record leaves every backing column exactly unchanged. -/
def appendOrKeep (s : ColumnStore) (r : WealthRecord) :
    ColumnStore × Option StoreError :=
  match appendRecord s r with
  | .ok s2 => (s2, none)
  | .error e => (s, some e)

/-! ## Inflation adjuster (spec section 4.5) -/

/-- One entry of the external InflationIndexSeries (spec section 3):
a date (day number) and the index value. -/
structure IndexPoint where
  date : ℤ
  value : ℚ
deriving DecidableEq

/-- Modelled from the spec (section 4.5, the adjuster source is not under
src): nearest-available-prior-index lookup — the value of the last index
entry dated at or before d in the date-ordered index series; none stands
for IndexCoverageError (d precedes the earliest index entry). -/
def indexAt (index : List IndexPoint) (d : ℤ) : Option ℚ :=
  ((index.filter (fun p => p.date ≤ d)).getLast?).map IndexPoint.value

/-- Adjusts each series point by base / indexAt(pointDate), failing when
any point's date is outside index coverage. -/
def adjustPoints (index : List IndexPoint) (base : ℚ) :
    List (ℤ × ℚ) → Option (List (ℤ × ℚ))
  | [] => some []
  | p :: rest =>
    match indexAt index p.1, adjustPoints index base rest with
    | some iv, some out => some ((p.1, p.2 * base / iv) :: out)
    | _, _ => none

/-- Modelled from the spec (section 4.5): adjustedValue = nominalValue *
indexAt(baseDate) / indexAt(pointDate) for every point of the series;
none stands for IndexCoverageError. -/
def adjust (series : List (ℤ × ℚ)) (index : List IndexPoint)
    (baseDate : ℤ) : Option (List (ℤ × ℚ)) :=
  match indexAt index baseDate with
  | none => none
  | some base => adjustPoints index base series

/-! ## Summary projector (spec section 4.6) -/

/-- The projected numbers of spec section 4.6. -/
structure ProjectedSummary where
  startValue : ℚ
  endValue : ℚ
  totalIncrease : ℚ
  dataPoints : ℕ
deriving DecidableEq

/-- Modelled from the spec (section 4.6, the projector source is not under
src): percent change from the first point to the last over the series,
with the endpoints and the point count; none on the empty series. Points
are (day number, total wealth). -/
def project : List (ℤ × ℚ) → Option ProjectedSummary
  | [] => none
  | p :: rest =>
    let lastPoint := (p :: rest).getLast (List.cons_ne_nil p rest)
    some
      { startValue := p.2
        endValue := lastPoint.2
        totalIncrease := 100 * (lastPoint.2 / p.2 - 1)
        dataPoints := (p :: rest).length }

/-! ## Growth model fitter, derived metrics (spec section 4.4) -/

/-- The annualized growth rate, as a percentage, derived from the per-day
rate constant b of the fitted model wealth(t) = a * exp(b * t) with t in
days: one year is 365.25 days, matching the relation the stored fitParams
of docs/index.html satisfy. -/
noncomputable def annualGrowthRateOf (b : ℝ) : ℝ :=
  100 * (Real.exp (b * 365.25) - 1)

/-- Modelled from the spec (section 4.4, the fitter source is not under
src): the per-day rate constant of the exponential through two points
(day numbers t1 < t2) — the interpolating exponential has zero squared
residual, hence is the least-squares fit. -/
noncomputable def fit2_b (t1 t2 : ℤ) (y1 y2 : ℚ) : ℝ :=
  Real.log ((y2 : ℝ) / (y1 : ℝ)) / ((t2 : ℝ) - (t1 : ℝ))

/-- Modelled from the spec (section 4.4): doubling time ln 2 / ln(1 +
growthRate); none (reported as infinite/NaN, never an exception) when the
growth rate is nonpositive. The rate is a fraction (0.125 is 12.5
percent). -/
noncomputable def doublingTime (growthRate : ℝ) : Option ℝ :=
  if growthRate ≤ 0 then none
  else some (Real.log 2 / Real.log (1 + growthRate))

/-! ## Concrete payloads used for witnesses and counterexamples -/

/-- A payload without inflation data, as served when no price index is
available (docs/index.html ships inflationData null). -/
def sampleNominalPayload : ChartData :=
  { data := [{ x := "2023-04-15", y := 12 }, { x := "2025-06-01", y := 16 }]
    trendLine := some [{ x := "2023-04-15", y := 12 }]
    inflationData := none
    inflationTrendLine := none
    fitParams := none
    summary := none
    inflationSummary := none
    inflationFitParams := none }

/-- A summary with a zero point count and missing timespan and start
value, exercising the N/A substitutions of updateInfo. -/
def sampleBareSummary : Summary :=
  { dataPoints := some 0
    timespan := none
    startValue := none
    endValue := some 16.529622766
    totalIncrease := some 30.7 }

/-- An explicit zero-growth fit: rate 0 and R-squared 0. -/
def zeroFitParams : FitParams :=
  { a := 0, b := 0, annualGrowthRate := some 0, r_squared := some 0 }

/-- A payload with a summary but no fitParams object. -/
def sampleNoFitPayload : ChartData :=
  { data := []
    trendLine := none
    inflationData := none
    inflationTrendLine := none
    fitParams := none
    summary := some sampleBareSummary
    inflationSummary := none
    inflationFitParams := none }

/-- The nominal trend line of the reuse counterexample payload. -/
def nominalTrendSample : List ChartPoint :=
  [{ x := "2023-04-15", y := 12 }, { x := "2025-06-01", y := 16 }]

/-- The inflation-adjusted series of the reuse counterexample payload. -/
def adjustedSeriesSample : List ChartPoint :=
  [{ x := "2023-04-15", y := 11 }, { x := "2025-06-01", y := 14 }]

/-- A payload carrying inflation-adjusted data but no inflation trend
line, the configuration the chart code's fallback branch handles. -/
def payloadNoAdjustedTrend : ChartData :=
  { data := [{ x := "2023-04-15", y := 12 }, { x := "2025-06-01", y := 16 }]
    trendLine := some nominalTrendSample
    inflationData := some
      { data := adjustedSeriesSample, inflationType := "CPI-U", baseDate := none }
    inflationTrendLine := none
    fitParams := none
    summary := none
    inflationSummary := none
    inflationFitParams := none }

/-- The empty columnar store. -/
def emptyColumnStore : ColumnStore :=
  { entityIds := [], names := [], netWorths := [], dates := []
    industryCodes := [], exchangeCodes := []
    holdingStarts := [], holdingCounts := []
    holdingCompanyCodes := [], holdingShares := [], holdingPrices := []
    industryDict := [], exchangeDict := [], companyDict := [] }

/-- A malformed record: the entity identifier is missing (empty). -/
def invalidRecord : WealthRecord :=
  { entityId := "", name := "Unknown", netWorth := 1, currency := "USD"
    industry := "Tech", exchange := "NYSE", date := 0, holdings := [] }

/-- A constant price-index series (no inflation), monthly cadence. -/
def constantIndexSample : List IndexPoint :=
  [{ date := 0, value := 2 }, { date := 30, value := 2 }, { date := 61, value := 2 }]

/-- A daily wealth series inside the coverage of constantIndexSample. -/
def wealthSeriesSample : List (ℤ × ℚ) := [(5, 10), (35, 12), (62, 13)]

/-- A well-formed record for the merge examples. -/
def sampleRecordEarly : WealthRecord :=
  { entityId := "B001", name := "Alice", netWorth := 105, currency := "USD"
    industry := "Tech", exchange := "NYSE", date := 100, holdings := [] }

/-- The stale valuation of the correction example. -/
def sampleRecordStale : WealthRecord :=
  { entityId := "B001", name := "Alice", netWorth := 110, currency := "USD"
    industry := "Tech", exchange := "NYSE", date := 101, holdings := [] }

/-- The corrected valuation resubmitted for the same date. -/
def sampleRecordFixed : WealthRecord :=
  { entityId := "B001", name := "Alice", netWorth := 117, currency := "USD"
    industry := "Tech", exchange := "NYSE", date := 101, holdings := [] }

/-- A two-date store whose latest date will receive a correction. -/
def sampleStore : List (ℤ × List WealthRecord) :=
  [(100, [sampleRecordEarly]), (101, [sampleRecordStale])]

/-- The correction batch for date 101. -/
def sampleBatch : List WealthRecord := [sampleRecordFixed]

/-! ## Analytic helper bounds for the exponential -/

/-- Degree-five Taylor control of the exponential on the unit interval,
from the library remainder bound at six terms. -/
lemma exp_near6 {x : ℝ} (h1 : 0 ≤ x) (h2 : x ≤ 1) :
    |Real.exp x - (1 + x + x ^ 2 / 2 + x ^ 3 / 6 + x ^ 4 / 24 + x ^ 5 / 120)| ≤
      x ^ 6 * 7 / 4320 := by
  have hx : |x| ≤ 1 := by rwa [abs_of_nonneg h1]
  have h := Real.exp_bound hx (n := 6) (by norm_num)
  rw [abs_of_nonneg h1] at h
  have hsum : (∑ m ∈ Finset.range 6, x ^ m / (Nat.factorial m : ℝ)) =
      1 + x + x ^ 2 / 2 + x ^ 3 / 6 + x ^ 4 / 24 + x ^ 5 / 120 := by
    simp only [Finset.sum_range_succ, Finset.sum_range_zero]
    norm_num [Nat.factorial]
  rw [hsum] at h
  have herr : (x : ℝ) ^ 6 * ((6 : ℕ).succ / ((Nat.factorial 6 : ℝ) * 6)) =
      x ^ 6 * 7 / 4320 := by
    norm_num [Nat.factorial]
    ring
  calc |Real.exp x - (1 + x + x ^ 2 / 2 + x ^ 3 / 6 + x ^ 4 / 24 + x ^ 5 / 120)| ≤
      x ^ 6 * ((6 : ℕ).succ / ((Nat.factorial 6 : ℝ) * 6)) := h
    _ = x ^ 6 * 7 / 4320 := herr

/-- Upper exponential bound through a rational anchor q at or above x. -/
lemma exp_le_of_le {x q : ℝ} (hq0 : 0 ≤ q) (hq1 : q ≤ 1) (hx : x ≤ q) :
    Real.exp x ≤
      1 + q + q ^ 2 / 2 + q ^ 3 / 6 + q ^ 4 / 24 + q ^ 5 / 120 + q ^ 6 * 7 / 4320 := by
  have h := abs_le.1 (exp_near6 hq0 hq1)
  have hm := Real.exp_le_exp.2 hx
  linarith [h.2]

/-- Lower exponential bound through a rational anchor q at or below x. -/
lemma le_exp_of_le {x q : ℝ} (hq0 : 0 ≤ q) (hq1 : q ≤ 1) (hx : q ≤ x) :
    1 + q + q ^ 2 / 2 + q ^ 3 / 6 + q ^ 4 / 24 + q ^ 5 / 120 - q ^ 6 * 7 / 4320 ≤
      Real.exp x := by
  have h := abs_le.1 (exp_near6 hq0 hq1)
  have hm := Real.exp_le_exp.2 hx
  linarith [h.1]

/-- The two-point exponential model reproduces its second data point
exactly: its squared residual is zero, so it is the least-squares fit. -/
lemma fit2_b_exact (t1 t2 : ℤ) (y1 y2 : ℚ) (ht : (t1 : ℝ) ≠ t2)
    (h1 : 0 < y1) (h2 : 0 < y2) :
    (y1 : ℝ) * Real.exp (fit2_b t1 t2 y1 y2 * ((t2 : ℝ) - t1)) = y2 := by
  have hne : (t2 : ℝ) - t1 ≠ 0 := sub_ne_zero.2 (Ne.symm ht)
  have h1R : (0 : ℝ) < (y1 : ℚ) := by exact_mod_cast h1
  have h2R : (0 : ℝ) < (y2 : ℚ) := by exact_mod_cast h2
  rw [fit2_b, div_mul_cancel₀ _ hne, Real.exp_log (by positivity)]
  field_simp

/-! ## Claim theorems -/

/-- Claim C9: when the payload carries no inflationData, setupControls
renders the Inflation Adjusted button disabled, no sequence of clicks can
move showInflation off false, and updateChartData always displays the
nominal series and trend, so the nominal view remains available and
displayed. -/
theorem inflation_control_disabled_keeps_nominal (cd : ChartData)
    (h : cd.inflationData = none) :
    inflationButtonDisabled cd = true ∧
    (∀ clicks : List String,
      clicks.foldl (handleControlClick cd) false = false) ∧
    (∀ b : Bool, updateChartData cd b = (cd.data, cd.trendLine)) := by
  have hstep : ∀ v : String, handleControlClick cd false v = false := by
    intro v
    by_cases hv : v = ""
    · simp [handleControlClick, hv]
    · by_cases hv2 : v = "inflation"
      · simp [handleControlClick, hv, hv2, inflationButtonDisabled, h]
      · simp [handleControlClick, hv, hv2]
  refine ⟨by simp [inflationButtonDisabled, h], ?_, ?_⟩
  · intro clicks
    induction clicks with
    | nil => rfl
    | cons v rest ih => simpa [hstep v] using ih
  · intro b
    cases b <;> simp [updateChartData, h]

/-- Witness for C9 at the concrete inflation-free payload. -/
theorem inflation_control_disabled_keeps_nominal_witness :
    inflationButtonDisabled sampleNominalPayload = true ∧
    (["inflation", "nominal", "inflation"].foldl
      (handleControlClick sampleNominalPayload) false = false) ∧
    updateChartData sampleNominalPayload true =
      (sampleNominalPayload.data, sampleNominalPayload.trendLine) := by
  obtain ⟨h1, h2, h3⟩ :=
    inflation_control_disabled_keeps_nominal sampleNominalPayload rfl
  exact ⟨h1, h2 _, h3 true⟩

/-- Claim C10: with a summary present and fitParams absent, updateInfo
still renders (none is only the guarded early return, never a failure):
growth rate and R-squared display as 0 through the or-zero defaults, the
missing summary fields render as N/A, and the rendered output is
identical to that of a payload carrying an explicit zero-growth fit. -/
theorem updateInfo_missing_fit_defaults (cd : ChartData) (s : Summary)
    (hs : cd.summary = some s) (hf : cd.fitParams = none) :
    updateInfo cd false = some (renderInfo s (some 0) (some 0)) ∧
    updateInfo { cd with fitParams := some zeroFitParams } false =
      updateInfo cd false ∧
    (s.startValue = none → (renderInfo s (some 0) (some 0)).startValue = none) ∧
    (s.dataPoints = some 0 → (renderInfo s (some 0) (some 0)).dataPoints = none) ∧
    (s.timespan = none → (renderInfo s (some 0) (some 0)).timespan = none) := by
  refine ⟨by simp [updateInfo, hs, hf],
    by simp [updateInfo, hs, hf, zeroFitParams], ?_, ?_, ?_⟩
  · intro h0
    simp [renderInfo, h0]
  · intro h0
    simp [renderInfo, h0, jsCountDisplay]
  · intro h0
    simp [renderInfo, h0, jsStrDisplay]

/-- Witness for C10 at a concrete payload whose summary has a zero point
count and missing timespan and start value. -/
theorem updateInfo_missing_fit_defaults_witness :
    updateInfo sampleNoFitPayload false =
      some (renderInfo sampleBareSummary (some 0) (some 0)) ∧
    updateInfo { sampleNoFitPayload with fitParams := some zeroFitParams }
      false = updateInfo sampleNoFitPayload false ∧
    (renderInfo sampleBareSummary (some 0) (some 0)).startValue = none ∧
    (renderInfo sampleBareSummary (some 0) (some 0)).dataPoints = none ∧
    (renderInfo sampleBareSummary (some 0) (some 0)).timespan = none := by
  obtain ⟨h1, h2, h3, h4, h5⟩ :=
    updateInfo_missing_fit_defaults sampleNoFitPayload sampleBareSummary rfl rfl
  exact ⟨h1, h2, h3 rfl, h4 rfl, h5 rfl⟩

/-- Claim C7 counterexample: on a payload whose inflationTrendLine is
absent, the inflation-adjusted view is produced (the displayed series is
the adjusted one, which differs from the nominal series) yet the trend
shown is exactly the payload's nominal trend line — the chart code reuses
it, refuting that the adjusted view never does. -/
theorem updateChartData_reuses_nominal_trend :
    (updateChartData payloadNoAdjustedTrend true).1 = adjustedSeriesSample ∧
    adjustedSeriesSample ≠ payloadNoAdjustedTrend.data ∧
    (updateChartData payloadNoAdjustedTrend true).2 = some nominalTrendSample ∧
    payloadNoAdjustedTrend.trendLine = some nominalTrendSample := by
  refine ⟨rfl, by decide, rfl, rfl⟩

/-- Claim C7 amended: when the inflation-adjusted view is produced, the
chart uses the payload's precomputed inflationTrendLine whenever one is
present, and reuses the nominal trend line when it is absent. -/
theorem updateChartData_trend_selection (cd : ChartData)
    (hi : cd.inflationData.isSome) :
    (∀ t, cd.inflationTrendLine = some t →
      (updateChartData cd true).2 = some t) ∧
    (cd.inflationTrendLine = none →
      (updateChartData cd true).2 = cd.trendLine) := by
  obtain ⟨infl, hinfl⟩ := Option.isSome_iff_exists.mp hi
  constructor
  · intro t ht
    simp [updateChartData, hinfl, ht]
  · intro ht
    simp [updateChartData, hinfl, ht]

/-- Witness for the amended C7 at the concrete fallback payload. -/
theorem updateChartData_trend_selection_witness :
    (updateChartData payloadNoAdjustedTrend true).2 =
      payloadNoAdjustedTrend.trendLine :=
  (updateChartData_trend_selection payloadNoAdjustedTrend rfl).2 rfl

/-! ## Encoder lemmas (claim C2) -/

/-- Encoding a value already in the dictionary leaves it unchanged. -/
lemma encode_fst_of_mem (d : List String) (v : String) (h : v ∈ d) :
    (encode d v).1 = d := by
  induction d with
  | nil => cases h
  | cons w ws ih =>
    by_cases hw : w = v
    · simp [encode, hw]
    · have hv : v ∈ ws := by
        rcases List.mem_cons.mp h with h1 | h1
        · exact absurd h1.symm hw
        · exact h1
      simp [encode, hw, ih hv]

/-- A value not yet in the dictionary is appended and receives the next
unused code, the current dictionary size. -/
lemma encode_of_not_mem (d : List String) (v : String) (h : v ∉ d) :
    encode d v = (d ++ [v], d.length) := by
  induction d with
  | nil => simp [encode]
  | cons w ws ih =>
    have hw : w ≠ v := fun hh => h (hh ▸ List.mem_cons_self w ws)
    have hv : v ∉ ws := fun hh => h (List.mem_cons_of_mem _ hh)
    simp [encode, hw, ih hv]

/-- Re-encoding the value its own append introduced returns the same code
without growing the dictionary. -/
lemma encode_append_self (d : List String) (v : String) (h : v ∉ d) :
    encode (d ++ [v]) v = (d ++ [v], d.length) := by
  induction d with
  | nil => simp [encode]
  | cons w ws ih =>
    have hw : w ≠ v := fun hh => h (hh ▸ List.mem_cons_self w ws)
    have hv : v ∉ ws := fun hh => h (List.mem_cons_of_mem _ hh)
    simp [encode, hw, ih hv]

/-- Folding encode over fresh distinct values appends them in order and
assigns consecutive codes from the current dictionary size. -/
lemma encodeAll_fresh (vs : List String) : ∀ d : List String, vs.Nodup →
    (∀ x ∈ vs, x ∉ d) →
    encodeAll d vs = (d ++ vs, (List.range vs.length).map (· + d.length)) := by
  induction vs with
  | nil => intro d _ _; simp [encodeAll]
  | cons v vs ih =>
    intro d hnd hdisj
    have hv : v ∉ d := hdisj v (List.mem_cons_self v vs)
    have hnd2 : vs.Nodup := hnd.of_cons
    have hdisj2 : ∀ x ∈ vs, x ∉ d ++ [v] := by
      intro x hx
      simp only [List.mem_append, List.mem_singleton]
      rintro (hxd | hxv)
      · exact hdisj x (List.mem_cons_of_mem _ hx) hxd
      · exact (List.nodup_cons.mp hnd).1 (hxv ▸ hx)
    simp only [encodeAll]
    rw [encode_of_not_mem d v hv, ih (d ++ [v]) hnd2 hdisj2]
    refine Prod.ext ?_ ?_
    · simp
    · simp only [List.length_cons, List.range_succ_eq_map, List.map_cons,
        List.map_map, List.length_append, List.length_singleton, List.length_nil]
      refine congrArg₂ List.cons (by omega) ?_
      refine List.map_congr_left ?_
      intro a _
      simp only [Function.comp_apply]
      omega

/-- Claim C2: the encoder contract — decode inverts encode; re-encoding
the same value returns the same code without growing the dictionary; no
already-allocated code changes meaning after the dictionary grows; a new
value receives the next unused code (the dictionary size); and over a
fresh dictionary, distinct values receive the codes 0, 1, 2, ... in
first-encounter order. -/
theorem encoder_contract (d : List String) (v : String) :
    decode (encode d v).1 (encode d v).2 = some v ∧
    encode (encode d v).1 v = encode d v ∧
    (∀ c, c < d.length → decode (encode d v).1 c = decode d c) ∧
    (v ∉ d → encode d v = (d ++ [v], d.length)) ∧
    (∀ vs : List String, vs.Nodup →
      (encodeAll [] vs).2 = List.range vs.length) := by
  refine ⟨?_, ?_, ?_, encode_of_not_mem d v, ?_⟩
  · induction d with
    | nil => simp [encode, decode]
    | cons w ws ih =>
      by_cases hw : w = v
      · simp [encode, decode, hw]
      · simp only [encode, decode, if_neg hw] at ih ⊢
        simpa using ih
  · by_cases h : v ∈ d
    · rw [encode_fst_of_mem d v h]
    · rw [encode_of_not_mem d v h]
      exact encode_append_self d v h
  · intro c hc
    by_cases h : v ∈ d
    · rw [encode_fst_of_mem d v h]
    · rw [encode_of_not_mem d v h]
      simp only [decode]
      exact List.getElem?_append_left hc
  · intro vs hnd
    rw [encodeAll_fresh vs [] hnd (by simp)]
    simp

/-- Witness for C2 with a one-entry dictionary and a fresh value. -/
theorem encoder_contract_witness :
    decode (encode ["NYSE"] "NASDAQ").1 (encode ["NYSE"] "NASDAQ").2 =
      some "NASDAQ" ∧
    encode (encode ["NYSE"] "NASDAQ").1 "NASDAQ" = encode ["NYSE"] "NASDAQ" ∧
    decode (encode ["NYSE"] "NASDAQ").1 0 = decode ["NYSE"] 0 ∧
    encode ["NYSE"] "NASDAQ" = (["NYSE"] ++ ["NASDAQ"], ["NYSE"].length) ∧
    (encodeAll [] ["NYSE", "NASDAQ"]).2 = List.range 2 := by
  obtain ⟨h1, h2, h3, h4, h5⟩ := encoder_contract ["NYSE"] "NASDAQ"
  exact ⟨h1, h2, h3 0 (by norm_num), h4 (by decide), h5 _ (by decide)⟩

/-! ## Merger lemmas (claim C1) -/

/-- After any merge for batchDate, the store holds records for that date. -/
lemma merge_contains (store : List (ℤ × List WealthRecord))
    (b : List WealthRecord) (d : ℤ) :
    (merge store b d).any (fun e => e.1 = d) = true := by
  unfold merge
  by_cases hc : store.any (fun e => e.1 = d) = true
  · rw [if_pos hc]
    rw [List.any_eq_true] at hc ⊢
    obtain ⟨e, he, hed⟩ := hc
    refine ⟨(d, b), List.mem_map.2 ⟨e, he, ?_⟩, by simp⟩
    have hed2 : e.1 = d := by simpa using hed
    simp [hed2]
  · rw [if_neg hc]
    rw [List.any_eq_true]
    exact ⟨(d, b), by simp, by simp⟩

/-- Superseding the rows of one date twice is the same as once. -/
lemma supersede_idem (b : List WealthRecord) (d : ℤ)
    (e : ℤ × List WealthRecord) :
    (fun e => if e.1 = d then (d, b) else e)
      ((fun e => if e.1 = d then (d, b) else e) e) =
      (fun e => if e.1 = d then (d, b) else e) e := by
  by_cases he : e.1 = d <;> simp [he]

/-- With unique stored dates, the rows a merge leaves for the batch date
are exactly the new batch. -/
lemma merge_filter_batchDate (store : List (ℤ × List WealthRecord))
    (b : List WealthRecord) (d : ℤ)
    (h : (store.map Prod.fst).Nodup) :
    (merge store b d).filter (fun e => e.1 = d) = [(d, b)] := by
  unfold merge
  by_cases hc : store.any (fun e => e.1 = d) = true
  · rw [if_pos hc]
    induction store with
    | nil => simp at hc
    | cons e s ih =>
      have hnd2 : (s.map Prod.fst).Nodup := (List.nodup_cons.mp h).2
      by_cases hed : e.1 = d
      · have hnotin : ∀ e2 ∈ s, ¬(e2.1 = d) := by
          intro e2 he2 he2d
          apply (List.nodup_cons.mp h).1
          have hm : e2.1 ∈ List.map Prod.fst s := List.mem_map.2 ⟨e2, he2, rfl⟩
          rwa [he2d, ← hed] at hm
        have hmap : s.map (fun e => if e.1 = d then (d, b) else e) = s := by
          have hid : s.map (fun e => if e.1 = d then (d, b) else e) = s.map id :=
            List.map_congr_left (fun a ha => by simp [hnotin a ha])
          simpa using hid
        have hfil : s.filter (fun e => e.1 = d) = [] := by
          rw [List.filter_eq_nil_iff]
          intro a ha
          simpa using hnotin a ha
        simp only [List.map_cons, if_pos hed, List.filter_cons]
        rw [hmap]
        simp [hfil]
      · have hc2 : s.any (fun e => e.1 = d) = true := by
          rcases List.any_eq_true.mp hc with ⟨e2, he2, he2d⟩
          rcases List.mem_cons.mp he2 with rfl | he2s
          · exact absurd (by simpa using he2d) hed
          · exact List.any_eq_true.2 ⟨e2, he2s, he2d⟩
        simp only [List.map_cons, if_neg hed, List.filter_cons]
        rw [ih hnd2 hc2]
        simp [hed]
  · rw [if_neg hc]
    have hnotin : ∀ e2 ∈ store, ¬(e2.1 = d) := by
      intro e2 he2 he2d
      exact hc (List.any_eq_true.2 ⟨e2, he2, by simpa using he2d⟩)
    rw [List.filter_append]
    have hfil : store.filter (fun e => e.1 = d) = [] := by
      rw [List.filter_eq_nil_iff]
      intro a ha
      simpa using hnotin a ha
    simp [hfil]

/-- Claim C1: merging an identical batch for the same date twice produces
the same store, hence the same aggregate series, as merging it once; and
(with the chronological store invariant of unique dates) the aggregate
point for the batch date is built from the new batch alone — records of
the same calendar date are never counted twice. -/
theorem merge_idempotent_aggregate (store : List (ℤ × List WealthRecord))
    (newBatch : List WealthRecord) (batchDate : ℤ)
    (h : (store.map Prod.fst).Nodup) :
    merge (merge store newBatch batchDate) newBatch batchDate =
      merge store newBatch batchDate ∧
    aggregateSeries (merge (merge store newBatch batchDate) newBatch batchDate) =
      aggregateSeries (merge store newBatch batchDate) ∧
    (merge store newBatch batchDate).filter (fun e => e.1 = batchDate) =
      [(batchDate, newBatch)] := by
  have h1 : merge (merge store newBatch batchDate) newBatch batchDate =
      merge store newBatch batchDate := by
    have hc2 := merge_contains store newBatch batchDate
    by_cases hc : store.any (fun e => e.1 = batchDate) = true
    · have hm1 : merge store newBatch batchDate =
          store.map (fun e => if e.1 = batchDate then (batchDate, newBatch) else e) := by
        unfold merge
        rw [if_pos hc]
      rw [hm1] at hc2 ⊢
      unfold merge
      rw [if_pos hc2, List.map_map]
      exact List.map_congr_left (fun e _ => supersede_idem newBatch batchDate e)
    · have hm1 : merge store newBatch batchDate =
          store ++ [(batchDate, newBatch)] := by
        unfold merge
        rw [if_neg hc]
      rw [hm1] at hc2 ⊢
      unfold merge
      rw [if_pos hc2, List.map_append]
      have hnotin : ∀ e2 ∈ store, ¬(e2.1 = batchDate) := by
        intro e2 he2 he2d
        exact hc (List.any_eq_true.2 ⟨e2, he2, by simpa using he2d⟩)
      have hmap : store.map
          (fun e => if e.1 = batchDate then (batchDate, newBatch) else e) = store := by
        have hid : store.map
            (fun e => if e.1 = batchDate then (batchDate, newBatch) else e) =
            store.map id :=
          List.map_congr_left (fun a ha => by simp [hnotin a ha])
        simpa using hid
      rw [hmap]
      simp
  exact ⟨h1, congrArg aggregateSeries h1,
    merge_filter_batchDate store newBatch batchDate h⟩

/-- Witness for C1 at a concrete two-date store and correction batch. -/
theorem merge_idempotent_aggregate_witness :
    merge (merge sampleStore sampleBatch 101) sampleBatch 101 =
      merge sampleStore sampleBatch 101 ∧
    aggregateSeries (merge (merge sampleStore sampleBatch 101) sampleBatch 101) =
      aggregateSeries (merge sampleStore sampleBatch 101) ∧
    (merge sampleStore sampleBatch 101).filter (fun e => e.1 = 101) =
      [(101, sampleBatch)] :=
  merge_idempotent_aggregate sampleStore sampleBatch 101 (by decide)

/-! ## Columnar store append (claim C8) -/

/-- Claim C8: appending a record whose entity identifier is missing raises
ValidationError and leaves the store exactly unchanged — no partial row
reaches any backing column array. -/
theorem append_missing_id_rejected (s : ColumnStore) (r : WealthRecord)
    (h : r.entityId = "") :
    appendRecord s r = Except.error StoreError.validationError ∧
    appendOrKeep s r = (s, some StoreError.validationError) ∧
    (appendOrKeep s r).1 = s := by
  have h1 : appendRecord s r = Except.error StoreError.validationError := by
    rw [appendRecord, if_pos h]
  exact ⟨h1, by rw [appendOrKeep, h1], by rw [appendOrKeep, h1]⟩

/-- Witness for C8: the empty store rejects the id-less record. -/
theorem append_missing_id_rejected_witness :
    appendRecord emptyColumnStore invalidRecord =
      Except.error StoreError.validationError ∧
    appendOrKeep emptyColumnStore invalidRecord =
      (emptyColumnStore, some StoreError.validationError) ∧
    (appendOrKeep emptyColumnStore invalidRecord).1 = emptyColumnStore :=
  append_missing_id_rejected emptyColumnStore invalidRecord rfl

/-! ## Inflation adjuster (claim C6) -/

/-- Every value a nearest-prior lookup returns comes from the index
series, so over a constant index series it is that constant. -/
lemma indexAt_const (index : List IndexPoint) (c : ℚ)
    (hv : ∀ q ∈ index, q.value = c) (d : ℤ) (v : ℚ)
    (h : indexAt index d = some v) : v = c := by
  rw [indexAt] at h
  obtain ⟨q, hq, hqv⟩ := Option.map_eq_some'.mp h
  have hmem : q ∈ index :=
    List.mem_of_mem_filter (List.mem_of_mem_getLast? hq)
  rw [← hqv]
  exact hv q hmem

/-- When every point of the series is covered by the index, the adjusted
series is the pointwise transform by base over the looked-up index. -/
lemma adjustPoints_eq_map (index : List IndexPoint) (base : ℚ) :
    ∀ series : List (ℤ × ℚ), (∀ p ∈ series, (indexAt index p.1).isSome) →
      adjustPoints index base series =
        some (series.map
          (fun p => (p.1, p.2 * base / ((indexAt index p.1).getD 0)))) := by
  intro series
  induction series with
  | nil => intro _; rfl
  | cons p rest ih =>
    intro hs
    obtain ⟨iv, hiv⟩ :=
      Option.isSome_iff_exists.mp (hs p (List.mem_cons_self p rest))
    have hrest := ih (fun q hq => hs q (List.mem_cons_of_mem _ hq))
    simp [adjustPoints, hiv, hrest]

/-- Claim C6: each adjusted value equals
nominal * indexAt(baseDate) / indexAt(pointDate) under nearest-prior
lookup, and adjusting with a constant index series returns the series
unchanged. -/
theorem inflation_adjust_pointwise_and_constant (index : List IndexPoint)
    (series : List (ℤ × ℚ)) (baseDate : ℤ) (base : ℚ)
    (hb : indexAt index baseDate = some base)
    (hs : ∀ p ∈ series, (indexAt index p.1).isSome) :
    adjust series index baseDate =
      some (series.map
        (fun p => (p.1, p.2 * base / ((indexAt index p.1).getD 0)))) ∧
    (∀ c : ℚ, c ≠ 0 → (∀ q ∈ index, q.value = c) →
      adjust series index baseDate = some series) := by
  have h1 : adjust series index baseDate =
      some (series.map
        (fun p => (p.1, p.2 * base / ((indexAt index p.1).getD 0)))) := by
    rw [adjust, hb]
    exact adjustPoints_eq_map index base series hs
  refine ⟨h1, ?_⟩
  intro c hc hv
  have hbase : base = c := indexAt_const index c hv baseDate base hb
  have hid : ∀ p ∈ series,
      (p.1, p.2 * base / ((indexAt index p.1).getD 0)) = p := by
    intro p hp
    obtain ⟨iv, hiv⟩ := Option.isSome_iff_exists.mp (hs p hp)
    have hivc : iv = c := indexAt_const index c hv p.1 iv hiv
    rw [hiv, Option.getD_some, hbase, hivc,
      mul_div_cancel_right₀ _ hc]
  rw [h1, List.map_congr_left hid]
  simp

/-- Witness for C6 at a constant monthly index over a daily series. -/
theorem inflation_adjust_constant_witness :
    adjust wealthSeriesSample constantIndexSample 62 =
      some wealthSeriesSample := by
  have h := inflation_adjust_pointwise_and_constant constantIndexSample
    wealthSeriesSample 62 2 (by decide) (by decide)
  exact h.2 2 (by decide) (by decide)

/-! ## Growth model parameters against the embedded payload (claim C3) -/

/-- Claim C3 counterexample: on the fitParams embedded in docs/index.html
the claimed reading fails. Were t measured in years with the reported rate
equal to 100(exp b - 1), that expression would be under 1 while the
payload reports a rate above 12; and the years reading of the model puts
the trend value 778 days (about 2.13 years) after the first date below
12.4 while the payload's own trend line ends above 15.88. -/
theorem fitParams_years_reading_fails :
    100 * (Real.exp (wealthFitParams.b : ℝ) - 1) < 1 ∧
    (12 : ℚ) < wealthFitParams.annualGrowthRate.getD 0 ∧
    (wealthFitParams.a : ℝ) *
      Real.exp ((wealthFitParams.b : ℝ) *
        ((timeRange_totalDays : ℝ) / 365.25)) < 12.4 ∧
    (15.88 : ℚ) < trendLineLast.y := by
  have hb : (wealthFitParams.b : ℝ) = 0.0003235203912776391 := by
    norm_num [wealthFitParams]
  have ha : (wealthFitParams.a : ℝ) = 12.353175509465203 := by
    norm_num [wealthFitParams]
  have hd : ((timeRange_totalDays : ℕ) : ℝ) = 778 := by
    norm_num [timeRange_totalDays]
  refine ⟨?_, ?_, ?_, ?_⟩
  · rw [hb]
    have h := Real.exp_bound_div_one_sub_of_interval
      (x := (0.0003235203912776391 : ℝ)) (by norm_num) (by norm_num)
    norm_num at h
    linarith
  · norm_num [wealthFitParams]
  · rw [hb, ha, hd]
    have hxlt : (0.0003235203912776391 : ℝ) * ((778 : ℝ) / 365.25) < 0.00069 := by
      norm_num
    have hmono : Real.exp ((0.0003235203912776391 : ℝ) * ((778 : ℝ) / 365.25)) <
        Real.exp 0.00069 := Real.exp_lt_exp.2 hxlt
    have h2 := Real.exp_bound_div_one_sub_of_interval
      (x := (0.00069 : ℝ)) (by norm_num) (by norm_num)
    norm_num at h2
    nlinarith [Real.exp_pos ((0.0003235203912776391 : ℝ) * ((778 : ℝ) / 365.25))]
  · norm_num [trendLineLast]

/-- Claim C3 amended: on the embedded fitParams, t is measured in days
elapsed from the first date and the reported annualized growth rate is
100(exp(b * 365.25) - 1): the payload's rate matches that formula within
0.001, and the payload's trend line ends (at 778 days) at
a * exp(b * 778) within 0.001. -/
theorem fitParams_day_model_matches :
    |((wealthFitParams.annualGrowthRate.getD 0 : ℚ) : ℝ) -
        annualGrowthRateOf (wealthFitParams.b : ℝ)| < 0.001 ∧
    |((trendLineLast.y : ℚ) : ℝ) - (wealthFitParams.a : ℝ) *
        Real.exp ((wealthFitParams.b : ℝ) * (timeRange_totalDays : ℝ))| < 0.001 := by
  have hb : (wealthFitParams.b : ℝ) = 0.0003235203912776391 := by
    norm_num [wealthFitParams]
  have ha : (wealthFitParams.a : ℝ) = 12.353175509465203 := by
    norm_num [wealthFitParams]
  have hg : ((wealthFitParams.annualGrowthRate.getD 0 : ℚ) : ℝ) =
      12.543071809643624 := by
    norm_num [wealthFitParams]
  have hy : ((trendLineLast.y : ℚ) : ℝ) = 15.888761266437603 := by
    norm_num [trendLineLast]
  have hd : ((timeRange_totalDays : ℕ) : ℝ) = 778 := by
    norm_num [timeRange_totalDays]
  constructor
  · rw [hg, annualGrowthRateOf, hb]
    have hx1 : (0.11816582 : ℝ) ≤ 0.0003235203912776391 * 365.25 := by norm_num
    have hx2 : (0.0003235203912776391 : ℝ) * 365.25 ≤ 0.11816583 := by norm_num
    have hlo := le_exp_of_le (q := (0.11816582 : ℝ)) (by norm_num) (by norm_num) hx1
    have hhi := exp_le_of_le (q := (0.11816583 : ℝ)) (by norm_num) (by norm_num) hx2
    norm_num at hlo hhi
    rw [abs_lt]
    constructor <;> linarith
  · rw [hy, ha, hb, hd]
    have hx1 : (0.2516988 : ℝ) ≤ 0.0003235203912776391 * 778 := by norm_num
    have hx2 : (0.0003235203912776391 : ℝ) * 778 ≤ 0.2516989 := by norm_num
    have hlo := le_exp_of_le (q := (0.2516988 : ℝ)) (by norm_num) (by norm_num) hx1
    have hhi := exp_le_of_le (q := (0.2516989 : ℝ)) (by norm_num) (by norm_num) hx2
    norm_num at hlo hhi
    rw [abs_lt]
    constructor <;> linarith

/-! ## Doubling time (claim C4) -/

/-- Claim C4: doubling time is ln 2 / ln(1 + growthRate) for every
positive growth rate; a nonpositive growth rate yields none (the
infinite/NaN report, no exception); and at a 12.5 percent growth rate the
doubling time lies within 0.01 of 5.88 years. -/
theorem doubling_time_contract :
    (∀ g : ℝ, 0 < g →
      doublingTime g = some (Real.log 2 / Real.log (1 + g))) ∧
    (∀ g : ℝ, g ≤ 0 → doublingTime g = none) ∧
    (∃ d, doublingTime 0.125 = some d ∧ |d - 5.88| < 0.01) := by
  have hform : ∀ g : ℝ, 0 < g →
      doublingTime g = some (Real.log 2 / Real.log (1 + g)) := by
    intro g hg
    rw [doublingTime, if_neg (not_le.2 hg)]
  have hnone : ∀ g : ℝ, g ≤ 0 → doublingTime g = none := by
    intro g hg
    rw [doublingTime, if_pos hg]
  refine ⟨hform, hnone,
    ⟨Real.log 2 / Real.log (1 + 0.125), hform 0.125 (by norm_num), ?_⟩⟩
  have h1125 : (1 : ℝ) + 0.125 = 1.125 := by norm_num
  rw [h1125]
  have hlogL : (0.117782 : ℝ) < Real.log 1.125 := by
    rw [Real.lt_log_iff_exp_lt (by norm_num)]
    have h := exp_le_of_le (q := (0.117782 : ℝ)) (by norm_num) (by norm_num) le_rfl
    norm_num at h ⊢
    linarith
  have hlogU : Real.log 1.125 < 0.117784 := by
    rw [Real.log_lt_iff_lt_exp (by norm_num)]
    have h := le_exp_of_le (q := (0.117784 : ℝ)) (by norm_num) (by norm_num) le_rfl
    norm_num at h ⊢
    linarith
  have hl2a := Real.log_two_gt_d9
  have hl2b := Real.log_two_lt_d9
  have hpos : (0 : ℝ) < Real.log 1.125 := by linarith
  rw [abs_lt]
  constructor
  · have h587 : (5.87 : ℝ) < Real.log 2 / Real.log 1.125 :=
      (lt_div_iff₀ hpos).2 (by nlinarith)
    linarith
  · have h589 : Real.log 2 / Real.log 1.125 < 5.89 :=
      (div_lt_iff₀ hpos).2 (by nlinarith)
    linarith

/-- Witness for C4 at concrete positive and nonpositive growth rates. -/
theorem doubling_time_contract_witness :
    doublingTime 0.125 = some (Real.log 2 / Real.log (1 + 0.125)) ∧
    doublingTime (-1) = none :=
  ⟨doubling_time_contract.1 0.125 (by norm_num),
   doubling_time_contract.2.1 (-1) (by norm_num)⟩

/-! ## Summary projection (claim C5) -/

/-- Claim C5: the projected percent increase of every non-empty series is
100(last/first - 1); the summary embedded in docs/index.html satisfies
that formula to within one part in 10^8 (float printing); and on the
two-point series (day 0, 10.0), (day 365, 11.3) — the dates 2023-01-01
and 2024-01-01 are 365 days apart — the percent increase is exactly 13
while the annualized growth rate of the fitted exponential lies within
0.1 of 13.0 percent. -/
theorem summary_projection_contract :
    (∀ (p : ℤ × ℚ) (rest : List (ℤ × ℚ)),
      ∃ ps, project (p :: rest) = some ps ∧
        ps.startValue = p.2 ∧
        ps.endValue = ((p :: rest).getLast (List.cons_ne_nil p rest)).2 ∧
        ps.totalIncrease =
          100 * (((p :: rest).getLast (List.cons_ne_nil p rest)).2 / p.2 - 1)) ∧
    |wealthSummary.totalIncrease.getD 0 -
      100 * (wealthSummary.endValue.getD 0 / wealthSummary.startValue.getD 0 - 1)|
      < 1 / 10 ^ 8 ∧
    (∃ ps, project [(0, 10), (365, 11.3)] = some ps ∧ ps.totalIncrease = 13) ∧
    (12.9 < annualGrowthRateOf (fit2_b 0 365 10 11.3) ∧
      annualGrowthRateOf (fit2_b 0 365 10 11.3) < 13.1) := by
  refine ⟨?_, ?_, ?_, ?_⟩
  · intro p rest
    exact ⟨_, rfl, rfl, rfl, rfl⟩
  · have h1 : wealthSummary.totalIncrease.getD 0 = 30.763565812462655 := by
      norm_num [wealthSummary]
    have h2 : wealthSummary.endValue.getD 0 = 16.529622766 := by
      norm_num [wealthSummary]
    have h3 : wealthSummary.startValue.getD 0 = 12.640847367000001 := by
      norm_num [wealthSummary]
    rw [h1, h2, h3, abs_lt]
    constructor <;> norm_num
  · exact ⟨_, rfl, by norm_num [project]⟩
  · have hb : fit2_b 0 365 10 11.3 = Real.log 1.13 / 365 := by
      rw [fit2_b]
      norm_num
    rw [hb, annualGrowthRateOf]
    have hlogL : (0.1222 : ℝ) < Real.log 1.13 := by
      rw [Real.lt_log_iff_exp_lt (by norm_num)]
      have h := exp_le_of_le (q := (0.1222 : ℝ)) (by norm_num) (by norm_num) le_rfl
      norm_num at h ⊢
      linarith
    have hlogU : Real.log 1.13 < 0.1223 := by
      rw [Real.log_lt_iff_lt_exp (by norm_num)]
      have h := le_exp_of_le (q := (0.1223 : ℝ)) (by norm_num) (by norm_num) le_rfl
      norm_num at h ⊢
      linarith
    have hx1 : (0.1222836 : ℝ) ≤ Real.log 1.13 / 365 * 365.25 := by linarith
    have hx2 : Real.log 1.13 / 365 * 365.25 ≤ 0.1223838 := by linarith
    have hlo := le_exp_of_le (q := (0.1222836 : ℝ)) (by norm_num) (by norm_num) hx1
    have hhi := exp_le_of_le (q := (0.1223838 : ℝ)) (by norm_num) (by norm_num) hx2
    norm_num at hlo hhi
    constructor <;> linarith

/-- Witness for C5 at a concrete two-point series: the projected percent
increase of (7 then 21) is 200 percent. -/
theorem summary_projection_contract_witness :
    (project [((3 : ℤ), (7 : ℚ)), (42, 21)]).map ProjectedSummary.totalIncrease =
      some 200 := by
  obtain ⟨ps, h1, _, _, h4⟩ := summary_projection_contract.1 (3, 7) [(42, 21)]
  rw [h1]
  simp only [Option.map_some']
  rw [h4]
  norm_num

end RedFlagProfits
